import Mathlib

/-!
Shallow embedding of the incremental concurrent downloader
(`src/data-prep/alice-aiml/download.py`) and proofs about its
change-detection, retry, staging, validation and statistics behaviour.

The network, the filesystem and the XML parser are external effects; they
are embedded as explicit inputs: a `ProbeResult` for the HEAD request of
one attempt, a `GetResult` for the GET request, a `writeOk` flag for the
streaming write into the staging file, and an `Option XmlElem` for the
outcome of `xml.etree.ElementTree.fromstring` on the fetched body.  The
filesystem effects of one `download_file` call are recorded as an explicit
event trace (`Ev`) which is then interpreted by a small filesystem
semantics (`FsState`, `applyEv`).
-/

namespace Aiml

/-- MAX_FILE_SIZE = 10 * 1024 * 1024 (download.py line 61). -/
def MAX_FILE_SIZE : Nat := 10 * 1024 * 1024

/-- RETRY_ATTEMPTS = 3 (download.py line 62). -/
def RETRY_ATTEMPTS : Nat := 3

/-- RETRY_DELAY = 1.0 (download.py line 63); delays are modelled in whole units. -/
def RETRY_DELAY : Nat := 1

/-- One cached record of `FileMetadata.data[filename]` (download.py lines 100-110). -/
structure CachedInfo where
  etag : Option String
  last_modified : Option String
  hash : String
  size : Nat
deriving DecidableEq

/-- Python `a or b` on optional strings: `a` when present and truthy
(non-empty), otherwise `b`. -/
def orStr : Option String → Option String → Option String
  | some a, b => if a = "" then b else some a
  | none, b => b

/-- Outcome of the conditional HEAD probe: a response with a status code and
the `ETag` / `Last-Modified` / `Content-Length` headers, or any raised
exception (transport failure). -/
inductive ProbeResult where
  | response (status : Nat) (etag lastModified contentLength : Option String)
  | failure
deriving DecidableEq

/-- The `headers_info` dict returned by `check_file_needs_download`;
`emptyInfo` models the empty dict `{}`. -/
structure HeadersInfo where
  etag : Option String
  last_modified : Option String
  content_length : Option String
deriving DecidableEq

/-- The empty `headers_info` dict. -/
def emptyInfo : HeadersInfo := ⟨none, none, none⟩

/-- Conditional headers sent on the probe (download.py lines 254-258):
`If-None-Match` from the cached etag and `If-Modified-Since` from the cached
last-modified timestamp, each included only when present and truthy. -/
def condHeaders (ci : CachedInfo) : List (String × String) :=
  (match ci.etag with
    | some e => if e = "" then [] else [("If-None-Match", e)]
    | none => []) ++
  (match ci.last_modified with
    | some lm => if lm = "" then [] else [("If-Modified-Since", lm)]
    | none => [])

/-- AIMLDownloader.check_file_needs_download (download.py lines 235-276).
Returns `(needs_download, headers_info, probe)` where the third component is
`some hs` when a HEAD probe carrying headers `hs` was issued and `none` when
the probe was skipped entirely. -/
def check_file_needs_download (force localExists : Bool) (cached : Option CachedInfo)
    (probe : ProbeResult) : Bool × HeadersInfo × Option (List (String × String)) :=
  if force then (true, emptyInfo, none)
  else if !localExists then (true, emptyInfo, none)
  else
    match cached with
    | none => (true, emptyInfo, none)
    | some ci =>
      let hdrs := condHeaders ci
      match probe with
      | .failure => (true, emptyInfo, some hdrs)
      | .response status e lm cl =>
        if status = 304 then (false, emptyInfo, some hdrs)
        else if status = 200 then (true, ⟨e, lm, cl⟩, some hdrs)
        else (true, emptyInfo, some hdrs)

/-- An XML element: a tag and its list of child elements (text content is
irrelevant to the checks performed by the script). -/
inductive XmlElem : Type where
  | node : String → List XmlElem → XmlElem

/-- Tag of an element. -/
def XmlElem.tag : XmlElem → String
  | .node t _ => t

/-- Children of an element. -/
def XmlElem.children : XmlElem → List XmlElem
  | .node _ cs => cs

mutual

/-- root.findall(".//category"): every strict descendant whose tag is
`category`, in document order (download.py line 216). -/
def findallCategory : XmlElem → List XmlElem
  | .node _ cs => findallCategoryList cs

/-- Descendant-or-self `category` search over a list of elements. -/
def findallCategoryList : List XmlElem → List XmlElem
  | [] => []
  | c :: rest =>
    (if c.tag = "category" then [c] else []) ++ findallCategory c ++ findallCategoryList rest

end

/-- Python `not content.strip()`: the string is empty or consists solely of
whitespace characters.  Stated structurally over the character list so it
reduces in the kernel. -/
def isBlank (s : String) : Bool :=
  s.data.all (fun c => c.isWhitespace)

/-- Python `str.lower()`, character by character. -/
def lowerStr (s : String) : String :=
  String.mk (s.data.map Char.toLower)

/-- element.find(t): first direct child with tag `t` (download.py lines 222-223). -/
def findChild (t : String) (e : XmlElem) : Option XmlElem :=
  e.children.find? (fun c => c.tag = t)

/-- Warnings emitted for one `category` element (download.py lines 221-227). -/
def catWarn (c : XmlElem) : List String :=
  (if (findChild "pattern" c).isNone then ["missing pattern"] else []) ++
  (if (findChild "template" c).isNone then ["missing template"] else [])

/-- Non-fatal warnings of the AIML-specific checks (download.py lines 210-227):
unexpected root tag, no category elements, or missing pattern/template in the
first three categories. -/
def aimlWarnings (root : XmlElem) : List String :=
  (if lowerStr root.tag = "aiml" then [] else ["unexpected root"]) ++
  (let cats := findallCategory root
   if cats.isEmpty then ["no category elements"]
   else ((cats.take 3).map catWarn).flatten)

/-- AIMLDownloader.validate_xml_file (download.py lines 190-233).
`suffixIsAiml` is `file_path.suffix.lower() == '.aiml'`; `parsed` is the
outcome of `ET.fromstring(content)` (`none` = ParseError).  Returns whether
the file is accepted together with the non-fatal warnings printed. -/
def validate_xml_file (suffixIsAiml : Bool) (content : String) (parsed : Option XmlElem) :
    Bool × List String :=
  if isBlank content then (false, [])
  else
    match parsed with
    | none => (false, [])
    | some root => (true, if suffixIsAiml then aimlWarnings root else [])

/-- Outcome of the GET transfer request of one attempt: a response with
status, `ETag`/`Last-Modified` headers, optional declared `Content-Length`
and the body that would be streamed, or a raised transport failure. -/
inductive GetResult where
  | response (status : Nat) (etag lastModified : Option String)
      (contentLength : Option Nat) (body : String)
  | failure
deriving DecidableEq

/-- Static context of one `download_file` call: the final local path, whether
`filename.endswith('.aiml')` (for names of the form `stem.aiml` this agrees
with `suffix.lower() == '.aiml'` used inside validation), the force flag,
whether the local file exists, and the cached metadata record. -/
structure FileCtx where
  localPath : String
  isAiml : Bool
  force : Bool
  localExists : Bool
  cached : Option CachedInfo

/-- temp_path = local_path.with_suffix(local_path.suffix + '.tmp')
(download.py line 283): the final path with `.tmp` appended.  Computed once
per `download_file` call, before the retry loop. -/
def tempPathOf (localPath : String) : String := localPath ++ ".tmp"

/-- External-world inputs of one attempt: the probe outcome, the GET
outcome, whether the streaming write into the staging file completes, and
the XML-parse outcome for the fetched body. -/
structure AttemptEnv where
  probe : ProbeResult
  get : GetResult
  writeOk : Bool
  parsed : Option XmlElem

/-- Statistics counters of the downloader (download.py lines 123-129). -/
structure Stats where
  downloaded : Nat
  skipped : Nat
  errors : Nat
  validation_errors : Nat
  total_size : Nat
deriving DecidableEq

/-- All-zero statistics. -/
def Stats.zero : Stats := ⟨0, 0, 0, 0, 0⟩

/-- Pointwise sum of statistics increments. -/
def Stats.add (a b : Stats) : Stats :=
  ⟨a.downloaded + b.downloaded, a.skipped + b.skipped, a.errors + b.errors,
   a.validation_errors + b.validation_errors, a.total_size + b.total_size⟩

/-- Filesystem / metadata events of one `download_file` call. -/
inductive Ev where
  | headProbe (headers : List (String × String))
  | tempWritten (path : String) (content : String) (complete : Bool)
  | tempDeleted (path : String)
  | renamed (tmpPath finalPath : String)
  | metaUpdated (etag lastModified : Option String) (size : Nat)
  | sleep (delay : Nat)
deriving DecidableEq

/-- Events of the probe: one `headProbe` when a probe was issued. -/
def probeEvsOf : Option (List (String × String)) → List Ev
  | some h => [Ev.headProbe h]
  | none => []

/-- How one attempt of the retry loop ends. -/
inductive AttemptRes where
  | skipped
  | success (size : Nat)
  | failed
deriving DecidableEq

/-- Result of one attempt: how it ended, its statistics increment, its event
trace, and whether the staging file exists when the attempt's body ends
(i.e. when control reaches the `except` handler on failure). -/
structure AttemptOut where
  res : AttemptRes
  delta : Stats
  evs : List Ev
  tempExists : Bool

/-- Content-length guard (download.py lines 307-308): true exactly when a
declared length strictly exceeds MAX_FILE_SIZE. -/
def oversize : Option Nat → Bool
  | some n => decide (MAX_FILE_SIZE < n)
  | none => false

/-- One iteration of the retry loop of AIMLDownloader.download_file
(download.py lines 289-343), up to but not including the `except` cleanup:
re-check change detection, issue the GET, enforce the content-length guard,
stream the body into the staging file, validate `.aiml` content, then
atomically rename and record metadata. -/
def attemptRun (ctx : FileCtx) (env : AttemptEnv) : AttemptOut :=
  let tmp := tempPathOf ctx.localPath
  let c := check_file_needs_download ctx.force ctx.localExists ctx.cached env.probe
  let pevs := probeEvsOf c.2.2
  if !c.1 then
    ⟨.skipped, ⟨0, 1, 0, 0, 0⟩, pevs, false⟩
  else
    match env.get with
    | .failure => ⟨.failed, Stats.zero, pevs, false⟩
    | .response status e lm cl body =>
      if status ≠ 200 then ⟨.failed, Stats.zero, pevs, false⟩
      else if oversize cl then ⟨.failed, Stats.zero, pevs, false⟩
      else if !env.writeOk then
        ⟨.failed, Stats.zero, pevs ++ [Ev.tempWritten tmp body false], true⟩
      else if ctx.isAiml && !(validate_xml_file true body env.parsed).1 then
        ⟨.failed, ⟨0, 0, 0, 1, 0⟩, pevs ++ [Ev.tempWritten tmp body true], true⟩
      else
        let newEtag := orStr e (c.2.1).etag
        let newLm := orStr lm (c.2.1).last_modified
        ⟨.success body.length, ⟨1, 0, 0, 0, body.length⟩,
         pevs ++ [Ev.tempWritten tmp body true, Ev.renamed tmp ctx.localPath,
                  Ev.metaUpdated newEtag newLm body.length],
         false⟩

/-- Terminal outcome of one item (the spec's DownloadOutcome). -/
inductive Outcome where
  | Downloaded (size : Nat)
  | Skipped
  | Failed
deriving DecidableEq

/-- Result of a whole `download_file` call: outcome, accumulated statistics
increment, event trace, and number of attempts executed. -/
structure DfResult where
  outcome : Outcome
  stats : Stats
  evs : List Ev
  attemptsUsed : Nat

/-- The retry loop `for attempt in range(RETRY_ATTEMPTS)` of download_file
(download.py lines 288-358).  `remaining` is the number of loop iterations
left, `idx` the current value of `attempt`; `envs idx` supplies the external
inputs of attempt `idx`.  On failure the `except` handler deletes the staging
file if it exists, then either records the error (last attempt) or sleeps
`RETRY_DELAY * 2 ** attempt` and retries. -/
def downloadGo (ctx : FileCtx) (envs : Nat → AttemptEnv) : Nat → Nat → DfResult
  | 0, idx => ⟨.Failed, Stats.zero, [], idx⟩
  | remaining + 1, idx =>
    let a := attemptRun ctx (envs idx)
    match a.res with
    | .skipped => ⟨.Skipped, a.delta, a.evs, idx + 1⟩
    | .success n => ⟨.Downloaded n, a.delta, a.evs, idx + 1⟩
    | .failed =>
      let cleanup := if a.tempExists then [Ev.tempDeleted (tempPathOf ctx.localPath)] else []
      if idx = RETRY_ATTEMPTS - 1 then
        ⟨.Failed, { a.delta with errors := a.delta.errors + 1 }, a.evs ++ cleanup, idx + 1⟩
      else
        let rest := downloadGo ctx envs remaining (idx + 1)
        ⟨rest.outcome, a.delta.add rest.stats,
         a.evs ++ cleanup ++ [Ev.sleep (RETRY_DELAY * 2 ^ idx)] ++ rest.evs,
         rest.attemptsUsed⟩

/-- AIMLDownloader.download_file (download.py lines 278-358) for one item,
started with a fresh statistics increment and attempt index 0. -/
def download_file (ctx : FileCtx) (envs : Nat → AttemptEnv) : DfResult :=
  downloadGo ctx envs RETRY_ATTEMPTS 0

/-- State of the two paths touched by one item: the final local path and the
staging path.  Each holds `some (content, complete)` where the flag records
whether that content was completely streamed. -/
structure FsState where
  final : Option (String × Bool)
  temp : Option (String × Bool)
deriving DecidableEq

/-- Interpretation of one event on the filesystem state. -/
def applyEv (s : FsState) : Ev → FsState
  | .tempWritten _ content complete => ⟨s.final, some (content, complete)⟩
  | .tempDeleted _ => ⟨s.final, none⟩
  | .renamed _ _ =>
    match s.temp with
    | some tc => ⟨some tc, none⟩
    | none => s
  | _ => s

/-- Run a trace of events on a filesystem state. -/
def runFs (s : FsState) : List Ev → FsState
  | [] => s
  | e :: t => runFs (applyEv s e) t

/-- The final local path holds no incompletely-written content. -/
def finalOk (s : FsState) : Bool :=
  match s.final with
  | some p => p.2
  | none => true

/-- After every single event of the trace, the final local path holds no
incompletely-written content. -/
def noIncompleteFinal (s : FsState) : List Ev → Bool
  | [] => true
  | e :: t => finalOk (applyEv s e) && noIncompleteFinal (applyEv s e) t

/-- Initial filesystem state: the final path holds `f0` (completely written
content from some earlier run, or nothing) and no staging file exists. -/
def fsInit (f0 : Option String) : FsState :=
  ⟨f0.map (fun c => (c, true)), none⟩

/-- Backoff delays appearing in a trace, in order. -/
def sleepsOf (evs : List Ev) : List Nat :=
  evs.filterMap (fun e => match e with | .sleep d => some d | _ => none)

/-- Staging paths written in a trace, in order. -/
def tempWrites (evs : List Ev) : List String :=
  evs.filterMap (fun e => match e with | .tempWritten p _ _ => some p | _ => none)

/-- Sum of validation-error increments over attempts `start, ..., start+len-1`. -/
def veSum (ctx : FileCtx) (envs : Nat → AttemptEnv) (start len : Nat) : Nat :=
  ((List.range' start len).map (fun i => (attemptRun ctx (envs i)).delta.validation_errors)).sum

/-- One entry of a collection's `files` list as consumed by
download_with_semaphore (download.py lines 378-389): whether
`validate_url(url)` holds (urllib parsing is external), and the context and
external inputs of its `download_file` call. -/
structure ItemSpec where
  urlValid : Bool
  ctx : FileCtx
  envs : Nat → AttemptEnv

/-- Events of one collection run: each item task settling with its boolean
result, and the metadata store being saved. -/
inductive CollEv where
  | itemSettled (idx : Nat) (ok : Bool)
  | metaSaved
deriving DecidableEq

/-- download_with_semaphore (download.py lines 378-389): an invalid URL
settles the task as False without fetching; otherwise the task settles with
the `download_file` result (True for Skipped and Downloaded, False for
Failed). -/
def processItem (it : ItemSpec) : Bool :=
  if !it.urlValid then false
  else
    match (download_file it.ctx it.envs).outcome with
    | .Failed => false
    | _ => true

/-- AIMLDownloader.download_collection (download.py lines 360-413): an empty
`files` list returns True immediately (before the metadata store is even
created); otherwise all item tasks are gathered and the metadata store is
saved in a `finally` block after they all settle. -/
def download_collection (files : List ItemSpec) : Bool × List CollEv :=
  if files.isEmpty then (true, [])
  else
    (true,
     (files.enum.map (fun p => CollEv.itemSettled p.1 (processItem p.2))) ++ [CollEv.metaSaved])

/-- The change-detection triple computed inside an attempt. -/
def checkOf (ctx : FileCtx) (env : AttemptEnv) : Bool × HeadersInfo × Option (List (String × String)) :=
  check_file_needs_download ctx.force ctx.localExists ctx.cached env.probe

/-- Events contributed by one attempt including the `except`-handler cleanup
of the staging file. -/
def segOf (ctx : FileCtx) (env : AttemptEnv) : List Ev :=
  (attemptRun ctx env).evs ++
    (if (attemptRun ctx env).tempExists then [Ev.tempDeleted (tempPathOf ctx.localPath)] else [])

lemma runFs_append (s : FsState) (l1 l2 : List Ev) :
    runFs s (l1 ++ l2) = runFs (runFs s l1) l2 := by
  induction l1 generalizing s with
  | nil => simp [runFs]
  | cons e t ih => simp [runFs, ih]

lemma noInc_append (s : FsState) (l1 l2 : List Ev) :
    noIncompleteFinal s (l1 ++ l2) =
      (noIncompleteFinal s l1 && noIncompleteFinal (runFs s l1) l2) := by
  induction l1 generalizing s with
  | nil => simp [noIncompleteFinal, runFs]
  | cons e t ih => simp [noIncompleteFinal, runFs, ih, Bool.and_assoc]

lemma runFs_probeEvs (s : FsState) (x : Option (List (String × String))) :
    runFs s (probeEvsOf x) = s := by
  cases x <;> simp [probeEvsOf, runFs, applyEv]

lemma noInc_probeEvs (s : FsState) (x : Option (List (String × String)))
    (hf : finalOk s = true) : noIncompleteFinal s (probeEvsOf x) = true := by
  cases x <;> simp [probeEvsOf, noIncompleteFinal, applyEv, hf]

/-- Master case analysis of one attempt: exactly one of the seven control
paths of the loop body is taken, and each determines the attempt output. -/
lemma attempt_spec (ctx : FileCtx) (env : AttemptEnv) :
    (attemptRun ctx env = ⟨.skipped, ⟨0, 1, 0, 0, 0⟩, probeEvsOf (checkOf ctx env).2.2, false⟩
       ∧ (checkOf ctx env).1 = false)
    ∨ ((checkOf ctx env).1 = true ∧ env.get = .failure
       ∧ attemptRun ctx env = ⟨.failed, Stats.zero, probeEvsOf (checkOf ctx env).2.2, false⟩)
    ∨ (∃ st e lm cl body, (checkOf ctx env).1 = true
       ∧ env.get = .response st e lm cl body ∧ st ≠ 200
       ∧ attemptRun ctx env = ⟨.failed, Stats.zero, probeEvsOf (checkOf ctx env).2.2, false⟩)
    ∨ (∃ e lm cl body, (checkOf ctx env).1 = true
       ∧ env.get = .response 200 e lm cl body ∧ oversize cl = true
       ∧ attemptRun ctx env = ⟨.failed, Stats.zero, probeEvsOf (checkOf ctx env).2.2, false⟩)
    ∨ (∃ e lm cl body, (checkOf ctx env).1 = true
       ∧ env.get = .response 200 e lm cl body ∧ oversize cl = false ∧ env.writeOk = false
       ∧ attemptRun ctx env = ⟨.failed, Stats.zero,
           probeEvsOf (checkOf ctx env).2.2 ++ [Ev.tempWritten (tempPathOf ctx.localPath) body false],
           true⟩)
    ∨ (∃ e lm cl body, (checkOf ctx env).1 = true
       ∧ env.get = .response 200 e lm cl body ∧ oversize cl = false ∧ env.writeOk = true
       ∧ (ctx.isAiml && !(validate_xml_file true body env.parsed).1) = true
       ∧ attemptRun ctx env = ⟨.failed, ⟨0, 0, 0, 1, 0⟩,
           probeEvsOf (checkOf ctx env).2.2 ++ [Ev.tempWritten (tempPathOf ctx.localPath) body true],
           true⟩)
    ∨ (∃ e lm cl body, (checkOf ctx env).1 = true
       ∧ env.get = .response 200 e lm cl body ∧ oversize cl = false ∧ env.writeOk = true
       ∧ (ctx.isAiml && !(validate_xml_file true body env.parsed).1) = false
       ∧ attemptRun ctx env = ⟨.success body.length, ⟨1, 0, 0, 0, body.length⟩,
           probeEvsOf (checkOf ctx env).2.2 ++
             [Ev.tempWritten (tempPathOf ctx.localPath) body true,
              Ev.renamed (tempPathOf ctx.localPath) ctx.localPath,
              Ev.metaUpdated (orStr e (checkOf ctx env).2.1.etag)
                (orStr lm (checkOf ctx env).2.1.last_modified) body.length],
           false⟩) := by
  rcases henv : env.get with ⟨st, e, lm, cl, body⟩ | _
  · cases hc : (checkOf ctx env).1 with
    | false =>
      refine Or.inl ⟨?_, rfl⟩
      simp only [checkOf] at hc
      simp [attemptRun, checkOf, hc, henv]
    | true =>
      simp only [checkOf] at hc
      by_cases hst : st = 200
      · subst hst
        cases hov : oversize cl with
        | true =>
          refine Or.inr (Or.inr (Or.inr (Or.inl ⟨e, lm, cl, body, rfl, rfl, hov, ?_⟩)))
          simp [attemptRun, checkOf, hc, henv, hov]
        | false =>
          cases hw : env.writeOk with
          | false =>
            refine Or.inr (Or.inr (Or.inr (Or.inr (Or.inl
              ⟨e, lm, cl, body, rfl, rfl, hov, rfl, ?_⟩))))
            simp [attemptRun, checkOf, hc, henv, hov, hw]
          | true =>
            cases hv : (ctx.isAiml && !(validate_xml_file true body env.parsed).1) with
            | true =>
              refine Or.inr (Or.inr (Or.inr (Or.inr (Or.inr (Or.inl
                ⟨e, lm, cl, body, rfl, rfl, hov, rfl, hv, ?_⟩)))))
              simp [attemptRun, checkOf, hc, henv, hov, hw, hv]
            | false =>
              refine Or.inr (Or.inr (Or.inr (Or.inr (Or.inr (Or.inr
                ⟨e, lm, cl, body, rfl, rfl, hov, rfl, hv, ?_⟩)))))
              simp [attemptRun, checkOf, hc, henv, hov, hw, hv]
      · refine Or.inr (Or.inr (Or.inl ⟨st, e, lm, cl, body, rfl, rfl, hst, ?_⟩))
        simp [attemptRun, checkOf, hc, henv, hst]
  · cases hc : (checkOf ctx env).1 with
    | false =>
      refine Or.inl ⟨?_, rfl⟩
      simp only [checkOf] at hc
      simp [attemptRun, checkOf, hc, henv]
    | true =>
      simp only [checkOf] at hc
      refine Or.inr (Or.inl ⟨rfl, rfl, ?_⟩)
      simp [attemptRun, checkOf, hc, henv]

/-- The transfer and the validation of one attempt both succeed: a 200
response whose declared length does not exceed the limit, a completed
streaming write, and (for `.aiml` targets) passing XML validation. -/
def transferAndValidationOk (ctx : FileCtx) (env : AttemptEnv) : Prop :=
  ∃ e lm cl body, env.get = GetResult.response 200 e lm cl body ∧
    oversize cl = false ∧ env.writeOk = true ∧
    (ctx.isAiml = true → (validate_xml_file true body env.parsed).1 = true)

lemma mem_probeEvs {ev : Ev} {x : Option (List (String × String))}
    (h : ev ∈ probeEvsOf x) : ∃ hs, ev = Ev.headProbe hs := by
  cases x with
  | none => simp [probeEvsOf] at h
  | some hs => simp [probeEvsOf] at h; exact ⟨hs, h⟩

/-- Every event of one attempt is a probe, a staging write to the one
staging path, the rename of that staging path onto the final path, or a
metadata update. -/
lemma attempt_evs_mem (ctx : FileCtx) (env : AttemptEnv) :
    ∀ ev ∈ (attemptRun ctx env).evs,
      (∃ hs, ev = Ev.headProbe hs) ∨
      (∃ c b, ev = Ev.tempWritten (tempPathOf ctx.localPath) c b) ∨
      ev = Ev.renamed (tempPathOf ctx.localPath) ctx.localPath ∨
      (∃ e lm n, ev = Ev.metaUpdated e lm n) := by
  rcases attempt_spec ctx env with ⟨ha, -⟩ | ⟨-, -, ha⟩ | ⟨st, e, lm, cl, body, -, -, -, ha⟩ |
    ⟨e, lm, cl, body, -, -, -, ha⟩ | ⟨e, lm, cl, body, -, -, -, -, ha⟩ |
    ⟨e, lm, cl, body, -, -, -, -, -, ha⟩ | ⟨e, lm, cl, body, -, -, -, -, -, ha⟩ <;>
  · rw [ha]
    intro ev hev
    simp only [List.mem_append, List.mem_cons, List.mem_singleton, List.not_mem_nil,
      or_false] at hev
    first
    | (rcases hev with hev | hev | hev | hev
       · exact Or.inl (mem_probeEvs hev)
       · exact Or.inr (Or.inl ⟨_, _, hev⟩)
       · exact Or.inr (Or.inr (Or.inl hev))
       · exact Or.inr (Or.inr (Or.inr ⟨_, _, _, hev⟩)))
    | (rcases hev with hev | hev
       · exact Or.inl (mem_probeEvs hev)
       · exact Or.inr (Or.inl ⟨_, _, hev⟩))
    | exact Or.inl (mem_probeEvs hev)

lemma sleepsOf_append (l1 l2 : List Ev) :
    sleepsOf (l1 ++ l2) = sleepsOf l1 ++ sleepsOf l2 := by
  simp [sleepsOf, List.filterMap_append]

lemma tempWrites_append (l1 l2 : List Ev) :
    tempWrites (l1 ++ l2) = tempWrites l1 ++ tempWrites l2 := by
  simp [tempWrites, List.filterMap_append]

/-- An attempt never sleeps: the backoff sleep lives in the loop, not the body. -/
lemma attempt_sleeps (ctx : FileCtx) (env : AttemptEnv) :
    sleepsOf (attemptRun ctx env).evs = [] := by
  rw [sleepsOf, List.filterMap_eq_nil_iff]
  intro ev hev
  rcases attempt_evs_mem ctx env ev hev with ⟨hs, rfl⟩ | ⟨c, b, rfl⟩ | rfl | ⟨e, lm, n, rfl⟩ <;> rfl

/-- Change detection answering `false` makes the attempt skip, bump the
skipped counter, and touch nothing. -/
lemma attempt_not_needed {ctx : FileCtx} {env : AttemptEnv}
    (h : (checkOf ctx env).1 = false) :
    attemptRun ctx env = ⟨.skipped, ⟨0, 1, 0, 0, 0⟩, probeEvsOf (checkOf ctx env).2.2, false⟩ := by
  rcases attempt_spec ctx env with ⟨ha, -⟩ | ⟨hc, -, -⟩ | ⟨_, _, _, _, _, hc, -, -, -⟩ |
    ⟨_, _, _, _, hc, -, -, -⟩ | ⟨_, _, _, _, hc, -, -, -, -⟩ |
    ⟨_, _, _, _, hc, -, -, -, -, -⟩ | ⟨_, _, _, _, hc, -, -, -, -, -⟩ <;>
    first | exact ha | (rw [hc] at h; cases h)

/-- A staging file left behind at the end of an attempt body means the
attempt failed. -/
lemma attempt_tempExists {ctx : FileCtx} {env : AttemptEnv}
    (h : (attemptRun ctx env).tempExists = true) : (attemptRun ctx env).res = .failed := by
  rcases attempt_spec ctx env with ⟨ha, -⟩ | ⟨-, -, ha⟩ | ⟨_, _, _, _, _, -, -, -, ha⟩ |
    ⟨_, _, _, _, -, -, -, ha⟩ | ⟨_, _, _, _, -, -, -, -, ha⟩ |
    ⟨_, _, _, _, -, -, -, -, -, ha⟩ | ⟨_, _, _, _, -, -, -, -, -, ha⟩ <;>
    rw [ha] <;> rw [ha] at h <;> first | rfl | cases h

/-- A rename event occurs in an attempt exactly when the attempt succeeded,
and then the transfer and the validation both succeeded; the rename moves
the staging path onto the final path. -/
lemma attempt_renamed {ctx : FileCtx} {env : AttemptEnv} {t p : String}
    (h : Ev.renamed t p ∈ (attemptRun ctx env).evs) :
    t = tempPathOf ctx.localPath ∧ p = ctx.localPath ∧
    (∃ n, (attemptRun ctx env).res = .success n) ∧ transferAndValidationOk ctx env := by
  rcases attempt_spec ctx env with ⟨ha, -⟩ | ⟨-, -, ha⟩ | ⟨st, e, lm, cl, body, -, -, -, ha⟩ |
    ⟨e, lm, cl, body, -, -, -, ha⟩ | ⟨e, lm, cl, body, -, -, -, -, ha⟩ |
    ⟨e, lm, cl, body, -, -, -, -, -, ha⟩ | ⟨e, lm, cl, body, hc, hg, hov, hw, hv, ha⟩
  · rw [ha] at h
    exact absurd (mem_probeEvs h).choose_spec (by simp)
  · rw [ha] at h
    exact absurd (mem_probeEvs h).choose_spec (by simp)
  · rw [ha] at h
    exact absurd (mem_probeEvs h).choose_spec (by simp)
  · rw [ha] at h
    exact absurd (mem_probeEvs h).choose_spec (by simp)
  · rw [ha] at h
    simp at h
    exact absurd (mem_probeEvs h).choose_spec (by simp)
  · rw [ha] at h
    simp at h
    exact absurd (mem_probeEvs h).choose_spec (by simp)
  · rw [ha] at h
    simp at h
    rcases h with h | ⟨ht, hp⟩
    · exact absurd (mem_probeEvs h).choose_spec (by simp)
    · refine ⟨ht, hp, ⟨body.length, by rw [ha]⟩, e, lm, cl, body, hg, hov, hw, ?_⟩
      intro hA
      rcases hb : (validate_xml_file true body env.parsed).1 with _ | _
      · rw [hA, hb] at hv; cases hv
      · rfl

/-- Staging writes of one attempt all target the one staging path. -/
lemma attempt_tempWrites {ctx : FileCtx} {env : AttemptEnv} {p c : String} {b : Bool}
    (h : Ev.tempWritten p c b ∈ (attemptRun ctx env).evs) : p = tempPathOf ctx.localPath := by
  rcases attempt_evs_mem ctx env _ h with ⟨hs, hh⟩ | ⟨c2, b2, hh⟩ | hh | ⟨e, lm, n, hh⟩
  · exact absurd hh (by simp)
  · injection hh
  · exact absurd hh (by simp)
  · exact absurd hh (by simp)

/-- How the statistics increment of an attempt is tied to the way the
attempt ends: a skip bumps only the skipped counter, a success bumps the
downloaded counter and the byte total, and a failure bumps nothing except
possibly the validation-error counter (by at most one). -/
lemma attempt_res_delta (ctx : FileCtx) (env : AttemptEnv) :
    ((attemptRun ctx env).res = .skipped → (attemptRun ctx env).delta = ⟨0, 1, 0, 0, 0⟩) ∧
    (∀ n, (attemptRun ctx env).res = .success n → (attemptRun ctx env).delta = ⟨1, 0, 0, 0, n⟩) ∧
    ((attemptRun ctx env).res = .failed →
      (attemptRun ctx env).delta.downloaded = 0 ∧ (attemptRun ctx env).delta.skipped = 0 ∧
      (attemptRun ctx env).delta.errors = 0 ∧ (attemptRun ctx env).delta.total_size = 0 ∧
      (attemptRun ctx env).delta.validation_errors ≤ 1) := by
  rcases attempt_spec ctx env with ⟨ha, -⟩ | ⟨-, -, ha⟩ | ⟨_, _, _, _, _, -, -, -, ha⟩ |
    ⟨_, _, _, _, -, -, -, ha⟩ | ⟨_, _, _, _, -, -, -, -, ha⟩ |
    ⟨_, _, _, _, -, -, -, -, -, ha⟩ | ⟨_, _, _, _, -, -, -, -, -, ha⟩ <;>
    rw [ha] <;> simp [Stats.zero]

/-- Statistics increment of a skipped attempt. -/
lemma attempt_delta_skipped {ctx : FileCtx} {env : AttemptEnv}
    (h : (attemptRun ctx env).res = .skipped) : (attemptRun ctx env).delta = ⟨0, 1, 0, 0, 0⟩ :=
  (attempt_res_delta ctx env).1 h

/-- Statistics increment of a successful attempt. -/
lemma attempt_delta_success {ctx : FileCtx} {env : AttemptEnv} {n : Nat}
    (h : (attemptRun ctx env).res = .success n) : (attemptRun ctx env).delta = ⟨1, 0, 0, 0, n⟩ :=
  (attempt_res_delta ctx env).2.1 n h

/-- Statistics increment of a failed attempt: nothing but possibly one
validation error. -/
lemma attempt_delta_failed {ctx : FileCtx} {env : AttemptEnv}
    (h : (attemptRun ctx env).res = .failed) :
    (attemptRun ctx env).delta.downloaded = 0 ∧ (attemptRun ctx env).delta.skipped = 0 ∧
    (attemptRun ctx env).delta.errors = 0 ∧ (attemptRun ctx env).delta.total_size = 0 ∧
    (attemptRun ctx env).delta.validation_errors ≤ 1 :=
  (attempt_res_delta ctx env).2.2 h

/-- A declared content length above the maximum makes the attempt fail
before anything is written (download.py lines 307-309), whatever the
status code. -/
lemma attempt_oversize {ctx : FileCtx} {env : AttemptEnv} {st : Nat}
    {e lm : Option String} {n : Nat} {body : String}
    (hne : (checkOf ctx env).1 = true)
    (hget : env.get = .response st e lm (some n) body)
    (hn : MAX_FILE_SIZE < n) :
    attemptRun ctx env = ⟨.failed, Stats.zero, probeEvsOf (checkOf ctx env).2.2, false⟩ := by
  simp only [checkOf] at hne
  by_cases hst : st = 200 <;>
    simp [attemptRun, checkOf, hne, hget, hst, oversize, hn]

/-- Successful attempt under explicit conditions: 200 response, declared
length within bounds, completed write, validation passing (or not needed). -/
lemma attempt_success {ctx : FileCtx} {env : AttemptEnv}
    {e lm : Option String} {cl : Option Nat} {body : String}
    (hne : (checkOf ctx env).1 = true)
    (hget : env.get = .response 200 e lm cl body)
    (hov : oversize cl = false)
    (hw : env.writeOk = true)
    (hv : ctx.isAiml = true → (validate_xml_file true body env.parsed).1 = true) :
    attemptRun ctx env = ⟨.success body.length, ⟨1, 0, 0, 0, body.length⟩,
      probeEvsOf (checkOf ctx env).2.2 ++
        [Ev.tempWritten (tempPathOf ctx.localPath) body true,
         Ev.renamed (tempPathOf ctx.localPath) ctx.localPath,
         Ev.metaUpdated (orStr e (checkOf ctx env).2.1.etag)
           (orStr lm (checkOf ctx env).2.1.last_modified) body.length],
      false⟩ := by
  have hg : (ctx.isAiml && !(validate_xml_file true body env.parsed).1) = false := by
    cases hA : ctx.isAiml with
    | false => simp
    | true => simp [hv hA]
  simp only [checkOf] at hne
  simp [attemptRun, checkOf, hne, hget, hov, hw, hg]

/-- Failing XML validation on an `.aiml` target fails the attempt and bumps
the validation-error counter by one (download.py lines 322-326). -/
lemma attempt_vfail {ctx : FileCtx} {env : AttemptEnv}
    {e lm : Option String} {cl : Option Nat} {body : String}
    (hne : (checkOf ctx env).1 = true)
    (hget : env.get = .response 200 e lm cl body)
    (hov : oversize cl = false)
    (hw : env.writeOk = true)
    (hA : ctx.isAiml = true)
    (hv : (validate_xml_file true body env.parsed).1 = false) :
    attemptRun ctx env = ⟨.failed, ⟨0, 0, 0, 1, 0⟩,
      probeEvsOf (checkOf ctx env).2.2 ++
        [Ev.tempWritten (tempPathOf ctx.localPath) body true],
      true⟩ := by
  simp only [checkOf] at hne
  simp [attemptRun, checkOf, hne, hget, hov, hw, hA, hv]

/-- Filesystem effect of one attempt, cleanup included: started with no
staging file and no incomplete content at the final path, it never leaves
incomplete content at the final path, it ends with no staging file, and the
final path ends with complete content. -/
lemma attempt_fs (ctx : FileCtx) (env : AttemptEnv) (s : FsState)
    (ht : s.temp = none) (hf : finalOk s = true) :
    noIncompleteFinal s (segOf ctx env) = true ∧
    (runFs s (segOf ctx env)).temp = none ∧
    finalOk (runFs s (segOf ctx env)) = true := by
  rcases s with ⟨f, tmp⟩
  cases ht
  have hf2 : f = none ∨ ∃ c, f = some (c, true) := by
    rcases f with - | ⟨c, b⟩
    · exact Or.inl rfl
    · refine Or.inr ⟨c, ?_⟩
      have hb : b = true := by simpa [finalOk] using hf
      rw [hb]
  rcases hf2 with rfl | ⟨c, rfl⟩ <;>
  rcases attempt_spec ctx env with ⟨ha, -⟩ | ⟨-, -, ha⟩ | ⟨st, e, lm, cl, body, -, -, -, ha⟩ |
    ⟨e, lm, cl, body, -, -, -, ha⟩ | ⟨e, lm, cl, body, -, -, -, -, ha⟩ |
    ⟨e, lm, cl, body, -, -, -, -, -, ha⟩ | ⟨e, lm, cl, body, -, -, -, -, -, ha⟩ <;>
    simp only [segOf, ha] <;>
    rcases hx : (checkOf ctx env).2.2 with _ | hs <;>
    simp [probeEvsOf, noIncompleteFinal, runFs, applyEv, finalOk, noInc_append,
      runFs_append]

lemma attempt_tempExists_false {ctx : FileCtx} {env : AttemptEnv}
    (h : (attemptRun ctx env).res ≠ .failed) : (attemptRun ctx env).tempExists = false := by
  cases hx : (attemptRun ctx env).tempExists
  · rfl
  · exact absurd (attempt_tempExists hx) h

lemma veSum_one (ctx : FileCtx) (envs : Nat → AttemptEnv) (idx : Nat) :
    veSum ctx envs idx 1 = (attemptRun ctx (envs idx)).delta.validation_errors := by
  simp [veSum, List.range'_one]

lemma veSum_succ (ctx : FileCtx) (envs : Nat → AttemptEnv) (idx m : Nat) :
    veSum ctx envs idx (m + 1) =
      (attemptRun ctx (envs idx)).delta.validation_errors + veSum ctx envs (idx + 1) m := by
  simp [veSum, List.range'_succ idx m 1]

/-- Combined induction over the retry loop: attempt-count bounds, the
relation of the final statistics to the terminal outcome, the
validation-error counter as a per-attempt sum, and the backoff-delay trace. -/
lemma go_main (ctx : FileCtx) (envs : Nat → AttemptEnv) :
    ∀ r idx, idx + r = RETRY_ATTEMPTS → 0 < r →
      (idx < (downloadGo ctx envs r idx).attemptsUsed ∧
        (downloadGo ctx envs r idx).attemptsUsed ≤ RETRY_ATTEMPTS) ∧
      (downloadGo ctx envs r idx).stats.validation_errors =
        veSum ctx envs idx ((downloadGo ctx envs r idx).attemptsUsed - idx) ∧
      ((downloadGo ctx envs r idx).outcome = .Skipped →
        (downloadGo ctx envs r idx).stats.skipped = 1 ∧
        (downloadGo ctx envs r idx).stats.downloaded = 0 ∧
        (downloadGo ctx envs r idx).stats.errors = 0 ∧
        (downloadGo ctx envs r idx).stats.total_size = 0) ∧
      (∀ n, (downloadGo ctx envs r idx).outcome = .Downloaded n →
        (downloadGo ctx envs r idx).stats.downloaded = 1 ∧
        (downloadGo ctx envs r idx).stats.total_size = n ∧
        (downloadGo ctx envs r idx).stats.skipped = 0 ∧
        (downloadGo ctx envs r idx).stats.errors = 0) ∧
      ((downloadGo ctx envs r idx).outcome = .Failed →
        (downloadGo ctx envs r idx).stats.errors = 1 ∧
        (downloadGo ctx envs r idx).stats.downloaded = 0 ∧
        (downloadGo ctx envs r idx).stats.skipped = 0 ∧
        (downloadGo ctx envs r idx).stats.total_size = 0) ∧
      sleepsOf (downloadGo ctx envs r idx).evs =
        (List.range' idx ((downloadGo ctx envs r idx).attemptsUsed - 1 - idx)).map
          (fun i => RETRY_DELAY * 2 ^ i) := by
  intro r
  induction r with
  | zero =>
    intro idx hsum hpos
    exact absurd hpos (by omega)
  | succ r ih =>
    intro idx hsum hpos
    simp only [downloadGo]
    rcases hres : (attemptRun ctx (envs idx)).res with _ | n | _
    · -- skipped
      dsimp only
      have hd := attempt_delta_skipped hres
      refine ⟨⟨by omega, by omega⟩, ?_, ?_, ?_, ?_, ?_⟩
      · simp only [Nat.add_sub_cancel_left, veSum_one, hd]
      · intro _
        simp [hd]
      · intro n hn
        exact absurd hn (by simp)
      · intro hn
        exact absurd hn (by simp)
      · simp [attempt_sleeps, Nat.sub_sub]
    · -- success
      dsimp only
      have hd := attempt_delta_success hres
      refine ⟨⟨by omega, by omega⟩, ?_, ?_, ?_, ?_, ?_⟩
      · simp only [Nat.add_sub_cancel_left, veSum_one, hd]
      · intro hn
        exact absurd hn (by simp)
      · intro m hm
        have hnm : n = m := by
          injection hm
        subst hnm
        simp [hd]
      · intro hn
        exact absurd hn (by simp)
      · simp [attempt_sleeps, Nat.sub_sub]
    · -- failed
      dsimp only
      obtain ⟨hd1, hd2, hd3, hd4, hd5⟩ := attempt_delta_failed hres
      by_cases hidx : idx = RETRY_ATTEMPTS - 1
      · rw [if_pos hidx]
        have hcl : sleepsOf
            (if (attemptRun ctx (envs idx)).tempExists then
              [Ev.tempDeleted (tempPathOf ctx.localPath)] else []) = [] := by
          cases (attemptRun ctx (envs idx)).tempExists <;> simp [sleepsOf]
        refine ⟨⟨?_, ?_⟩, ?_, ?_, ?_, ?_, ?_⟩
        · show idx < idx + 1
          omega
        · show idx + 1 ≤ RETRY_ATTEMPTS
          omega
        · simp only [Nat.add_sub_cancel_left, veSum_one]
        · intro hn
          exact absurd hn (by simp)
        · intro m hm
          exact absurd hm (by simp)
        · intro _
          refine ⟨by simp [hd3], by simp [hd1], by simp [hd2], by simp [hd4]⟩
        · simp only [sleepsOf_append, attempt_sleeps, hcl]
          simp
      · have hr : 0 < r := by omega
        have hih := ih (idx + 1) (by omega) hr
        simp only [if_neg hidx]
        have hA1 : idx + 1 < (downloadGo ctx envs r (idx + 1)).attemptsUsed := hih.1.1
        have hA2 : (downloadGo ctx envs r (idx + 1)).attemptsUsed ≤ RETRY_ATTEMPTS := hih.1.2
        have hcl : sleepsOf
            (if (attemptRun ctx (envs idx)).tempExists then
              [Ev.tempDeleted (tempPathOf ctx.localPath)] else []) = [] := by
          cases (attemptRun ctx (envs idx)).tempExists <;> simp [sleepsOf]
        have hsl : sleepsOf [Ev.sleep (RETRY_DELAY * 2 ^ idx)] =
            [RETRY_DELAY * 2 ^ idx] := by simp [sleepsOf]
        have hk : (downloadGo ctx envs r (idx + 1)).attemptsUsed - idx =
            ((downloadGo ctx envs r (idx + 1)).attemptsUsed - (idx + 1)) + 1 := by omega
        have hk2 : (downloadGo ctx envs r (idx + 1)).attemptsUsed - 1 - idx =
            ((downloadGo ctx envs r (idx + 1)).attemptsUsed - 1 - (idx + 1)) + 1 := by omega
        refine ⟨⟨?_, ?_⟩, ?_, ?_, ?_, ?_, ?_⟩
        · show idx < (downloadGo ctx envs r (idx + 1)).attemptsUsed
          omega
        · show (downloadGo ctx envs r (idx + 1)).attemptsUsed ≤ RETRY_ATTEMPTS
          omega
        · show ((attemptRun ctx (envs idx)).delta.add
              (downloadGo ctx envs r (idx + 1)).stats).validation_errors =
            veSum ctx envs idx ((downloadGo ctx envs r (idx + 1)).attemptsUsed - idx)
          rw [hk, veSum_succ]
          simp only [Stats.add]
          rw [hih.2.1]
        · intro hn
          obtain ⟨k1, k2, k3, k4⟩ := hih.2.2.1 hn
          simp only [Stats.add]
          refine ⟨by omega, by omega, by omega, by omega⟩
        · intro m hm
          obtain ⟨k1, k2, k3, k4⟩ := hih.2.2.2.1 m hm
          simp only [Stats.add]
          refine ⟨by omega, by omega, by omega, by omega⟩
        · intro hn
          obtain ⟨k1, k2, k3, k4⟩ := hih.2.2.2.2.1 hn
          simp only [Stats.add]
          refine ⟨by omega, by omega, by omega, by omega⟩
        · simp only [sleepsOf_append, attempt_sleeps, hcl, hsl, List.nil_append]
          rw [hih.2.2.2.2.2, hk2, List.range'_succ idx _ 1]
          simp

/-- The events contributed by a failed attempt inside the loop are exactly
`segOf`; for a non-failed attempt `segOf` degenerates to the bare events. -/
lemma segOf_eq_evs {ctx : FileCtx} {env : AttemptEnv}
    (h : (attemptRun ctx env).res ≠ .failed) : segOf ctx env = (attemptRun ctx env).evs := by
  simp [segOf, attempt_tempExists_false h]

/-- Filesystem induction over the retry loop: started with no staging file
and no incomplete final content, the whole trace of `downloadGo` never
leaves incomplete content at the final path, and it ends with no staging
file and with complete content (if any) at the final path. -/
lemma go_fs (ctx : FileCtx) (envs : Nat → AttemptEnv) :
    ∀ r idx s, s.temp = none → finalOk s = true →
      noIncompleteFinal s (downloadGo ctx envs r idx).evs = true ∧
      (runFs s (downloadGo ctx envs r idx).evs).temp = none ∧
      finalOk (runFs s (downloadGo ctx envs r idx).evs) = true := by
  intro r
  induction r with
  | zero =>
    intro idx s ht hf
    simp [downloadGo, noIncompleteFinal, runFs, ht, hf]
  | succ r ih =>
    intro idx s ht hf
    simp only [downloadGo]
    rcases hres : (attemptRun ctx (envs idx)).res with _ | n | _
    · have hseg := attempt_fs ctx (envs idx) s ht hf
      rw [segOf_eq_evs (by rw [hres]; simp)] at hseg
      exact hseg
    · have hseg := attempt_fs ctx (envs idx) s ht hf
      rw [segOf_eq_evs (by rw [hres]; simp)] at hseg
      exact hseg
    · have hseg := attempt_fs ctx (envs idx) s ht hf
      by_cases hidx : idx = RETRY_ATTEMPTS - 1
      · rw [if_pos hidx]
        exact hseg
      · rw [if_neg hidx]
        show noIncompleteFinal s (segOf ctx (envs idx) ++ [Ev.sleep (RETRY_DELAY * 2 ^ idx)]
            ++ (downloadGo ctx envs r (idx + 1)).evs) = true ∧
          (runFs s (segOf ctx (envs idx) ++ [Ev.sleep (RETRY_DELAY * 2 ^ idx)]
            ++ (downloadGo ctx envs r (idx + 1)).evs)).temp = none ∧
          finalOk (runFs s (segOf ctx (envs idx) ++ [Ev.sleep (RETRY_DELAY * 2 ^ idx)]
            ++ (downloadGo ctx envs r (idx + 1)).evs)) = true
        obtain ⟨hs1, hs2, hs3⟩ := hseg
        have hmid : runFs s (segOf ctx (envs idx) ++ [Ev.sleep (RETRY_DELAY * 2 ^ idx)]) =
            runFs s (segOf ctx (envs idx)) := by
          rw [runFs_append]
          rfl
        have hih := ih (idx + 1) (runFs s (segOf ctx (envs idx))) hs2 hs3
        refine ⟨?_, ?_, ?_⟩
        · rw [noInc_append, noInc_append, hmid]
          have hsleep : noIncompleteFinal (runFs s (segOf ctx (envs idx)))
              [Ev.sleep (RETRY_DELAY * 2 ^ idx)] = true := by
            simp [noIncompleteFinal, applyEv, hs3]
          rw [hs1, hsleep, hih.1]
          rfl
        · rw [runFs_append, hmid]
          exact hih.2.1
        · rw [runFs_append, hmid]
          exact hih.2.2

/-- Every staging write in the whole trace of `downloadGo` targets the one
staging path, and every rename moves that staging path onto the final path. -/
lemma go_paths (ctx : FileCtx) (envs : Nat → AttemptEnv) :
    ∀ r idx,
      (∀ p c b, Ev.tempWritten p c b ∈ (downloadGo ctx envs r idx).evs →
        p = tempPathOf ctx.localPath) ∧
      (∀ t p, Ev.renamed t p ∈ (downloadGo ctx envs r idx).evs →
        t = tempPathOf ctx.localPath ∧ p = ctx.localPath) := by
  intro r
  induction r with
  | zero =>
    intro idx
    simp [downloadGo]
  | succ r ih =>
    intro idx
    simp only [downloadGo]
    rcases hres : (attemptRun ctx (envs idx)).res with _ | n | _
    · exact ⟨fun p c b h => attempt_tempWrites h,
        fun t p h => ⟨(attempt_renamed h).1, (attempt_renamed h).2.1⟩⟩
    · exact ⟨fun p c b h => attempt_tempWrites h,
        fun t p h => ⟨(attempt_renamed h).1, (attempt_renamed h).2.1⟩⟩
    · have hcl : ∀ ev ∈ (if (attemptRun ctx (envs idx)).tempExists then
          [Ev.tempDeleted (tempPathOf ctx.localPath)] else []),
          ev = Ev.tempDeleted (tempPathOf ctx.localPath) := by
        cases (attemptRun ctx (envs idx)).tempExists <;> simp
      by_cases hidx : idx = RETRY_ATTEMPTS - 1
      · rw [if_pos hidx]
        constructor
        · intro p c b h
          rcases List.mem_append.mp h with h | h
          · exact attempt_tempWrites h
          · exact absurd (hcl _ h) (by simp)
        · intro t p h
          rcases List.mem_append.mp h with h | h
          · exact ⟨(attempt_renamed h).1, (attempt_renamed h).2.1⟩
          · exact absurd (hcl _ h) (by simp)
      · rw [if_neg hidx]
        constructor
        · intro p c b h
          show p = tempPathOf ctx.localPath
          rcases List.mem_append.mp h with h | h
          · rcases List.mem_append.mp h with h | h
            · rcases List.mem_append.mp h with h | h
              · exact attempt_tempWrites h
              · exact absurd (hcl _ h) (by simp)
            · exact absurd (List.mem_singleton.mp h) (by simp)
          · exact (ih (idx + 1)).1 p c b h
        · intro t p h
          rcases List.mem_append.mp h with h | h
          · rcases List.mem_append.mp h with h | h
            · rcases List.mem_append.mp h with h | h
              · exact ⟨(attempt_renamed h).1, (attempt_renamed h).2.1⟩
              · exact absurd (hcl _ h) (by simp)
            · exact absurd (List.mem_singleton.mp h) (by simp)
          · exact (ih (idx + 1)).2 t p h

lemma go_skip (ctx : FileCtx) (envs : Nat → AttemptEnv) (r r' idx : Nat) (hr : r = r' + 1)
    (h : (attemptRun ctx (envs idx)).res = .skipped) :
    downloadGo ctx envs r idx =
      ⟨.Skipped, (attemptRun ctx (envs idx)).delta, (attemptRun ctx (envs idx)).evs, idx + 1⟩ := by
  subst hr
  simp only [downloadGo, h]

lemma go_success (ctx : FileCtx) (envs : Nat → AttemptEnv) (r r' idx n : Nat) (hr : r = r' + 1)
    (h : (attemptRun ctx (envs idx)).res = .success n) :
    downloadGo ctx envs r idx =
      ⟨.Downloaded n, (attemptRun ctx (envs idx)).delta, (attemptRun ctx (envs idx)).evs, idx + 1⟩ := by
  subst hr
  simp only [downloadGo, h]

lemma go_failed_last (ctx : FileCtx) (envs : Nat → AttemptEnv) (r r' idx : Nat) (hr : r = r' + 1)
    (h : (attemptRun ctx (envs idx)).res = .failed) (hidx : idx = RETRY_ATTEMPTS - 1) :
    downloadGo ctx envs r idx =
      ⟨.Failed,
       { (attemptRun ctx (envs idx)).delta with
           errors := (attemptRun ctx (envs idx)).delta.errors + 1 },
       segOf ctx (envs idx), idx + 1⟩ := by
  subst hr
  simp only [downloadGo, h, if_pos hidx, segOf]

lemma go_failed_step (ctx : FileCtx) (envs : Nat → AttemptEnv) (r r' idx : Nat) (hr : r = r' + 1)
    (h : (attemptRun ctx (envs idx)).res = .failed) (hidx : idx ≠ RETRY_ATTEMPTS - 1) :
    downloadGo ctx envs r idx =
      ⟨(downloadGo ctx envs r' (idx + 1)).outcome,
       (attemptRun ctx (envs idx)).delta.add (downloadGo ctx envs r' (idx + 1)).stats,
       segOf ctx (envs idx) ++ [Ev.sleep (RETRY_DELAY * 2 ^ idx)] ++
         (downloadGo ctx envs r' (idx + 1)).evs,
       (downloadGo ctx envs r' (idx + 1)).attemptsUsed⟩ := by
  subst hr
  simp only [downloadGo, h, if_neg hidx, segOf]

lemma segOf_sleeps (ctx : FileCtx) (env : AttemptEnv) : sleepsOf (segOf ctx env) = [] := by
  rw [segOf, sleepsOf_append, attempt_sleeps]
  cases (attemptRun ctx env).tempExists <;> simp [sleepsOf]

/-- C2: the change-detection decision follows the policy in order: force ⇒
fetch with no validators and no probe; missing local file ⇒ fetch with no
probe; missing cached record ⇒ fetch with no probe; otherwise a conditional
probe is issued carrying the stored etag as If-None-Match and the stored
timestamp as If-Modified-Since, and 304 ⇒ skip, 200 ⇒ fetch with the
response's validators, anything else (status or transport failure) ⇒ fetch. -/
theorem c2_change_detection_policy (force localExists : Bool) (cached : Option CachedInfo)
    (probe : ProbeResult) :
    (force = true →
      check_file_needs_download force localExists cached probe = (true, emptyInfo, none)) ∧
    (force = false → localExists = false →
      check_file_needs_download force localExists cached probe = (true, emptyInfo, none)) ∧
    (force = false → localExists = true → cached = none →
      check_file_needs_download force localExists cached probe = (true, emptyInfo, none)) ∧
    (∀ ci, force = false → localExists = true → cached = some ci →
      ((check_file_needs_download force localExists cached probe).2.2 = some (condHeaders ci) ∧
       (∀ e, ci.etag = some e → e ≠ "" → ("If-None-Match", e) ∈ condHeaders ci) ∧
       (∀ t, ci.last_modified = some t → t ≠ "" → ("If-Modified-Since", t) ∈ condHeaders ci) ∧
       (∀ e lm cl, probe = .response 304 e lm cl →
         check_file_needs_download force localExists cached probe =
           (false, emptyInfo, some (condHeaders ci))) ∧
       (∀ e lm cl, probe = .response 200 e lm cl →
         check_file_needs_download force localExists cached probe =
           (true, ⟨e, lm, cl⟩, some (condHeaders ci))) ∧
       (∀ st e lm cl, probe = .response st e lm cl → st ≠ 304 → st ≠ 200 →
         check_file_needs_download force localExists cached probe =
           (true, emptyInfo, some (condHeaders ci))) ∧
       (probe = .failure →
         check_file_needs_download force localExists cached probe =
           (true, emptyInfo, some (condHeaders ci))))) := by
  refine ⟨?_, ?_, ?_, ?_⟩
  · intro hf
    subst hf
    simp [check_file_needs_download]
  · intro hf hl
    subst hf
    subst hl
    simp [check_file_needs_download]
  · intro hf hl hc
    subst hf
    subst hl
    subst hc
    cases probe with
    | response st e lm cl => simp [check_file_needs_download]
    | failure => simp [check_file_needs_download]
  · intro ci hf hl hc
    subst hf
    subst hl
    subst hc
    refine ⟨?_, ?_, ?_, ?_, ?_, ?_, ?_⟩
    · cases probe with
      | response st e lm cl =>
        by_cases h304 : st = 304
        · simp [check_file_needs_download, h304]
        · by_cases h200 : st = 200 <;>
            simp [check_file_needs_download, h304, h200]
      | failure => simp [check_file_needs_download]
    · intro e he hne
      simp [condHeaders, he, hne]
    · intro t ht htn
      rcases hca : ci.etag with _ | e2 <;>
        simp [condHeaders, ht, htn, hca] <;>
        by_cases h2 : e2 = "" <;> simp [h2]
    · intro e lm cl hp
      subst hp
      simp [check_file_needs_download]
    · intro e lm cl hp
      subst hp
      simp [check_file_needs_download]
    · intro st e lm cl hp h304 h200
      subst hp
      simp [check_file_needs_download, h304, h200]
    · intro hp
      subst hp
      simp [check_file_needs_download]

/-- Witness for C2 at concrete inputs: a cached record with etag E1 and
timestamp T1, a 304 probe answer making the decision "skip", and the force
flag short-circuiting the probe entirely. -/
theorem c2_change_detection_policy_witness :
    check_file_needs_download false true (some ⟨some "E1", some "T1", "h", 5⟩)
        (.response 304 none none none) =
      (false, emptyInfo, some [("If-None-Match", "E1"), ("If-Modified-Since", "T1")]) ∧
    check_file_needs_download true true (some ⟨some "E1", some "T1", "h", 5⟩)
        (.response 304 none none none) = (true, emptyInfo, none) ∧
    check_file_needs_download false true (some ⟨some "E1", some "T1", "h", 5⟩)
        (.response 200 (some "E2") none none) =
      (true, ⟨some "E2", none, none⟩, some [("If-None-Match", "E1"), ("If-Modified-Since", "T1")]) := by
  refine ⟨?_, ?_, ?_⟩
  · exact (((c2_change_detection_policy false true (some ⟨some "E1", some "T1", "h", 5⟩)
      (.response 304 none none none)).2.2.2 ⟨some "E1", some "T1", "h", 5⟩ rfl rfl
      rfl).2.2.2.1 none none none rfl).trans (by decide)
  · exact (c2_change_detection_policy true true (some ⟨some "E1", some "T1", "h", 5⟩)
      (.response 304 none none none)).1 rfl
  · exact (((c2_change_detection_policy false true (some ⟨some "E1", some "T1", "h", 5⟩)
      (.response 200 (some "E2") none none)).2.2.2 ⟨some "E1", some "T1", "h", 5⟩ rfl rfl
      rfl).2.2.2.2.1 (some "E2") none none rfl).trans (by decide)

/-- C7: when change detection answers "skip" (304 on the conditional probe
for a cached, locally present file), `download_file` returns Skipped after
one attempt, bumps only the skipped counter, performs no write, no rename
and no metadata update, and leaves the filesystem state unchanged. -/
theorem c7_skip_frame (ctx : FileCtx) (envs : Nat → AttemptEnv) (ci : CachedInfo)
    (f0 : Option String) (e lm cl : Option String)
    (hforce : ctx.force = false) (hl : ctx.localExists = true) (hc : ctx.cached = some ci)
    (hp : (envs 0).probe = .response 304 e lm cl) :
    (download_file ctx envs).outcome = .Skipped ∧
    (download_file ctx envs).attemptsUsed = 1 ∧
    (download_file ctx envs).stats = ⟨0, 1, 0, 0, 0⟩ ∧
    runFs (fsInit f0) (download_file ctx envs).evs = fsInit f0 ∧
    (∀ e2 lm2 n, Ev.metaUpdated e2 lm2 n ∉ (download_file ctx envs).evs) ∧
    (∀ p c b, Ev.tempWritten p c b ∉ (download_file ctx envs).evs) ∧
    (∀ t p, Ev.renamed t p ∉ (download_file ctx envs).evs) := by
  have hchk : (checkOf ctx (envs 0)).1 = false := by
    simp [checkOf, check_file_needs_download, hforce, hl, hc, hp]
  have ha := attempt_not_needed hchk
  have hE : download_file ctx envs =
      ⟨.Skipped, ⟨0, 1, 0, 0, 0⟩, probeEvsOf (checkOf ctx (envs 0)).2.2, 0 + 1⟩ := by
    have h1 := go_skip ctx envs 3 2 0 rfl (by rw [ha])
    rw [ha] at h1
    exact h1
  rw [hE]
  refine ⟨rfl, rfl, rfl, runFs_probeEvs _ _, ?_, ?_, ?_⟩
  · intro e2 lm2 n h
    exact absurd (mem_probeEvs h).choose_spec (by simp)
  · intro p c b h
    exact absurd (mem_probeEvs h).choose_spec (by simp)
  · intro t p h
    exact absurd (mem_probeEvs h).choose_spec (by simp)

/-- Witness for C7: a cached file with etag E1, a 304 probe answer; the run
is Skipped with untouched filesystem state. -/
theorem c7_skip_frame_witness :
    (download_file ⟨"f.txt", false, false, true, some ⟨some "E1", some "T1", "h", 5⟩⟩
        (fun _ => ⟨.response 304 none none none, .failure, true, none⟩)).outcome = .Skipped ∧
    runFs (fsInit (some "old"))
        (download_file ⟨"f.txt", false, false, true, some ⟨some "E1", some "T1", "h", 5⟩⟩
          (fun _ => ⟨.response 304 none none none, .failure, true, none⟩)).evs =
      fsInit (some "old") := by
  have h := c7_skip_frame ⟨"f.txt", false, false, true, some ⟨some "E1", some "T1", "h", 5⟩⟩
    (fun _ => ⟨.response 304 none none none, .failure, true, none⟩)
    ⟨some "E1", some "T1", "h", 5⟩ (some "old") none none none rfl rfl rfl rfl
  exact ⟨h.1, h.2.2.2.1⟩

/-- Body of the C10 oversize instance: a body one byte longer than the
configured maximum. -/
def bigBody : String := String.mk (List.replicate (MAX_FILE_SIZE + 1) 'a')

/-- Context of the C10 oversize instance: a forced fetch of a non-AIML file. -/
def bigCtx : FileCtx := ⟨"big.bin", false, true, true, none⟩

/-- Attempt inputs of the C10 oversize instance: a 200 response with no
declared Content-Length and an over-limit body. -/
def bigEnv : AttemptEnv := ⟨.failure, .response 200 none none none bigBody, true, none⟩

/-- C10: when the transfer response carries no declared Content-Length, the
size limit is never enforced: the attempt streams, writes and publishes the
whole body whatever its length, and yields Downloaded — including for a
body strictly larger than MAX_FILE_SIZE, as the closing concrete instance
shows. -/
theorem c10_no_length_no_limit (ctx : FileCtx) (env : AttemptEnv)
    (e lm : Option String) (body : String)
    (hne : (checkOf ctx env).1 = true)
    (hget : env.get = .response 200 e lm none body)
    (hw : env.writeOk = true)
    (hv : ctx.isAiml = true → (validate_xml_file true body env.parsed).1 = true) :
    (attemptRun ctx env).res = .success body.length ∧
    (attemptRun ctx env).delta = ⟨1, 0, 0, 0, body.length⟩ ∧
    Ev.tempWritten (tempPathOf ctx.localPath) body true ∈ (attemptRun ctx env).evs ∧
    (∀ envs : Nat → AttemptEnv, envs 0 = env →
      (download_file ctx envs).outcome = .Downloaded body.length) ∧
    (attemptRun bigCtx bigEnv).res = .success (MAX_FILE_SIZE + 1) ∧
    MAX_FILE_SIZE < MAX_FILE_SIZE + 1 := by
  have ha := attempt_success hne hget rfl hw hv
  refine ⟨by rw [ha], by rw [ha], by rw [ha]; simp, ?_, ?_, by omega⟩
  · intro envs henvs
    have h1 := go_success ctx envs 3 2 0 body.length rfl (by rw [henvs, ha])
    show (downloadGo ctx envs 3 0).outcome = _
    rw [h1]
  · have hne2 : (checkOf bigCtx bigEnv).1 = true := rfl
    have hget2 : bigEnv.get = .response 200 none none none bigBody := rfl
    have hv2 : bigCtx.isAiml = true → (validate_xml_file true bigBody bigEnv.parsed).1 = true :=
      fun h => absurd h (by decide)
    have ha2 := attempt_success hne2 hget2 rfl rfl hv2
    rw [ha2]
    have hlen : bigBody.length = MAX_FILE_SIZE + 1 := by
      show (String.mk (List.replicate (MAX_FILE_SIZE + 1) 'a')).length = MAX_FILE_SIZE + 1
      rw [String.length, List.length_replicate]
    rw [hlen]

/-- Witness for C10 at a small concrete input: a 200 response with no
Content-Length header yields a successful attempt of the body's length. -/
theorem c10_no_length_no_limit_witness :
    (attemptRun ⟨"f.txt", false, true, true, none⟩
        ⟨.failure, .response 200 none none none "hello", true, none⟩).res = .success 5 ∧
    (download_file ⟨"f.txt", false, true, true, none⟩
        (fun _ => ⟨.failure, .response 200 none none none "hello", true, none⟩)).outcome =
      .Downloaded 5 := by
  have h := c10_no_length_no_limit ⟨"f.txt", false, true, true, none⟩
    ⟨.failure, .response 200 none none none "hello", true, none⟩
    none none "hello" (by decide) rfl rfl (fun hA => absurd hA (by decide))
  exact ⟨h.1, h.2.2.2.1 _ rfl⟩

/-- An attempt environment whose transfer response declares a
Content-Length strictly above the maximum, for an item that change
detection says must be fetched. -/
def oversizeAttempt (ctx : FileCtx) (env : AttemptEnv) : Prop :=
  (checkOf ctx env).1 = true ∧
  ∃ st e lm n body, env.get = .response st e lm (some n) body ∧ MAX_FILE_SIZE < n

/-- C4: a declared Content-Length strictly above the 10 MiB maximum fails
the attempt immediately — nothing of the body is written and nothing is
renamed — and when every attempt of an item sees such a response, the item
ends Failed, never Downloaded. -/
theorem c4_oversize_rejection (ctx : FileCtx) (envs : Nat → AttemptEnv) :
    (∀ env : AttemptEnv, oversizeAttempt ctx env →
      (attemptRun ctx env).res = .failed ∧
      (∀ p c b, Ev.tempWritten p c b ∉ (attemptRun ctx env).evs) ∧
      (∀ t p, Ev.renamed t p ∉ (attemptRun ctx env).evs)) ∧
    ((∀ i, i < RETRY_ATTEMPTS → oversizeAttempt ctx (envs i)) →
      (download_file ctx envs).outcome = .Failed ∧
      (∀ n, (download_file ctx envs).outcome ≠ .Downloaded n)) := by
  have key : ∀ env : AttemptEnv, oversizeAttempt ctx env →
      attemptRun ctx env = ⟨.failed, Stats.zero, probeEvsOf (checkOf ctx env).2.2, false⟩ := by
    intro env hov
    obtain ⟨hne, st, e, lm, n, body, hget, hn⟩ := hov
    exact attempt_oversize hne hget hn
  constructor
  · intro env hov
    have ha := key env hov
    rw [ha]
    refine ⟨rfl, ?_, ?_⟩
    · intro p c b h
      exact absurd (mem_probeEvs h).choose_spec (by simp)
    · intro t p h
      exact absurd (mem_probeEvs h).choose_spec (by simp)
  · intro hall
    have h0 : (attemptRun ctx (envs 0)).res = .failed := by
      rw [key (envs 0) (hall 0 (by decide))]
    have h1 : (attemptRun ctx (envs (0 + 1))).res = .failed := by
      rw [key (envs (0 + 1)) (hall (0 + 1) (by decide))]
    have h2 : (attemptRun ctx (envs (0 + 1 + 1))).res = .failed := by
      rw [key (envs (0 + 1 + 1)) (hall (0 + 1 + 1) (by decide))]
    have E0 := go_failed_step ctx envs 3 2 0 rfl h0 (by decide)
    have E1 := go_failed_step ctx envs 2 1 (0 + 1) rfl h1 (by decide)
    have E2 := go_failed_last ctx envs 1 0 (0 + 1 + 1) rfl h2 (by decide)
    have hout : (download_file ctx envs).outcome = .Failed := by
      show (downloadGo ctx envs 3 0).outcome = _
      rw [E0]
      show (downloadGo ctx envs 2 (0 + 1)).outcome = _
      rw [E1]
      show (downloadGo ctx envs 1 (0 + 1 + 1)).outcome = _
      rw [E2]
    refine ⟨hout, ?_⟩
    intro n hd
    rw [hout] at hd
    cases hd

/-- Witness for C4: every attempt answers 200 with a declared length of
MAX_FILE_SIZE + 1; the item ends Failed. -/
theorem c4_oversize_rejection_witness :
    (attemptRun ⟨"f.txt", false, true, true, none⟩
        ⟨.failure, .response 200 none none (some (MAX_FILE_SIZE + 1)) "", true, none⟩).res =
      .failed ∧
    (download_file ⟨"f.txt", false, true, true, none⟩
        (fun _ => ⟨.failure, .response 200 none none (some (MAX_FILE_SIZE + 1)) "", true, none⟩)).outcome =
      .Failed := by
  have h := c4_oversize_rejection ⟨"f.txt", false, true, true, none⟩
    (fun _ => ⟨.failure, .response 200 none none (some (MAX_FILE_SIZE + 1)) "", true, none⟩)
  have hov : oversizeAttempt ⟨"f.txt", false, true, true, none⟩
      ⟨.failure, .response 200 none none (some (MAX_FILE_SIZE + 1)) "", true, none⟩ :=
    ⟨by decide, 200, none, none, MAX_FILE_SIZE + 1, "", rfl, by omega⟩
  exact ⟨(h.1 _ hov).1, (h.2 (fun i _ => hov)).1⟩

/-- C3: at most RETRY_ATTEMPTS = 3 attempts are ever made; between
consecutive failed attempts the loop sleeps RETRY_DELAY * 2 ^ attempt, so
the delays are 1 then 2, strictly increasing; fail-fail-success yields
Downloaded with exactly 3 attempts, and fail-fail-fail yields Failed with
exactly 3 attempts. -/
theorem c3_retry_backoff (ctx : FileCtx) (envs : Nat → AttemptEnv) :
    (download_file ctx envs).attemptsUsed ≤ RETRY_ATTEMPTS ∧
    ((attemptRun ctx (envs 0)).res = .failed → (attemptRun ctx (envs 1)).res = .failed →
      ((∀ n, (attemptRun ctx (envs 2)).res = .success n →
        (download_file ctx envs).outcome = .Downloaded n ∧
        (download_file ctx envs).attemptsUsed = 3 ∧
        sleepsOf (download_file ctx envs).evs = [RETRY_DELAY * 2 ^ 0, RETRY_DELAY * 2 ^ 1] ∧
        List.Chain' (fun a b => a < b) (sleepsOf (download_file ctx envs).evs)) ∧
      ((attemptRun ctx (envs 2)).res = .failed →
        (download_file ctx envs).outcome = .Failed ∧
        (download_file ctx envs).attemptsUsed = 3))) := by
  constructor
  · exact (go_main ctx envs RETRY_ATTEMPTS 0 rfl (by decide)).1.2
  · intro h0 h1
    have E0 := go_failed_step ctx envs 3 2 0 rfl h0 (by decide)
    have E1 := go_failed_step ctx envs 2 1 (0 + 1) rfl h1 (by decide)
    constructor
    · intro n h2
      have E2 := go_success ctx envs 1 0 (0 + 1 + 1) n rfl h2
      have hout : (download_file ctx envs).outcome = .Downloaded n := by
        show (downloadGo ctx envs 3 0).outcome = _
        rw [E0]
        show (downloadGo ctx envs 2 (0 + 1)).outcome = _
        rw [E1]
        show (downloadGo ctx envs 1 (0 + 1 + 1)).outcome = _
        rw [E2]
      have hatt : (download_file ctx envs).attemptsUsed = 3 := by
        show (downloadGo ctx envs 3 0).attemptsUsed = 3
        rw [E0]
        show (downloadGo ctx envs 2 (0 + 1)).attemptsUsed = 3
        rw [E1]
        show (downloadGo ctx envs 1 (0 + 1 + 1)).attemptsUsed = 3
        rw [E2]
      have hsl : sleepsOf (download_file ctx envs).evs =
          [RETRY_DELAY * 2 ^ 0, RETRY_DELAY * 2 ^ 1] := by
        show sleepsOf (downloadGo ctx envs 3 0).evs = _
        rw [E0]
        show sleepsOf (segOf ctx (envs 0) ++ [Ev.sleep (RETRY_DELAY * 2 ^ 0)] ++
          (downloadGo ctx envs 2 (0 + 1)).evs) = _
        rw [E1]
        show sleepsOf (segOf ctx (envs 0) ++ [Ev.sleep (RETRY_DELAY * 2 ^ 0)] ++
          (segOf ctx (envs (0 + 1)) ++ [Ev.sleep (RETRY_DELAY * 2 ^ (0 + 1))] ++
            (downloadGo ctx envs 1 (0 + 1 + 1)).evs)) = _
        rw [E2]
        simp only [sleepsOf_append, segOf_sleeps, attempt_sleeps, List.nil_append,
          List.append_nil]
        simp [sleepsOf]
      refine ⟨hout, hatt, hsl, ?_⟩
      rw [hsl]
      refine List.chain'_cons.mpr ⟨by decide, ?_⟩
      exact List.chain'_singleton _
    · intro h2
      have E2 := go_failed_last ctx envs 1 0 (0 + 1 + 1) rfl h2 (by decide)
      constructor
      · show (downloadGo ctx envs 3 0).outcome = _
        rw [E0]
        show (downloadGo ctx envs 2 (0 + 1)).outcome = _
        rw [E1]
        show (downloadGo ctx envs 1 (0 + 1 + 1)).outcome = _
        rw [E2]
      · show (downloadGo ctx envs 3 0).attemptsUsed = 3
        rw [E0]
        show (downloadGo ctx envs 2 (0 + 1)).attemptsUsed = 3
        rw [E1]
        show (downloadGo ctx envs 1 (0 + 1 + 1)).attemptsUsed = 3
        rw [E2]

/-- Witness for C3: transport failure on the first two attempts, a clean 200
on the third; the item is Downloaded after exactly 3 attempts with delays 1
and 2. -/
theorem c3_retry_backoff_witness :
    (download_file ⟨"f.txt", false, true, true, none⟩
        (fun i => if i < 2 then ⟨.failure, .failure, true, none⟩
          else ⟨.failure, .response 200 none none (some 5) "hello", true, none⟩)).outcome =
      .Downloaded 5 ∧
    (download_file ⟨"f.txt", false, true, true, none⟩
        (fun i => if i < 2 then ⟨.failure, .failure, true, none⟩
          else ⟨.failure, .response 200 none none (some 5) "hello", true, none⟩)).attemptsUsed = 3 ∧
    sleepsOf (download_file ⟨"f.txt", false, true, true, none⟩
        (fun i => if i < 2 then ⟨.failure, .failure, true, none⟩
          else ⟨.failure, .response 200 none none (some 5) "hello", true, none⟩)).evs =
      [RETRY_DELAY * 2 ^ 0, RETRY_DELAY * 2 ^ 1] := by
  have h := (c3_retry_backoff ⟨"f.txt", false, true, true, none⟩
    (fun i => if i < 2 then ⟨.failure, .failure, true, none⟩
      else ⟨.failure, .response 200 none none (some 5) "hello", true, none⟩)).2
    (by decide) (by decide)
  have hs := h.1 5 (by decide)
  exact ⟨hs.1, hs.2.1, hs.2.2.1⟩

lemma finalOk_fsInit (f0 : Option String) : finalOk (fsInit f0) = true := by
  cases f0 <;> rfl

/-- C1: over the whole trace of a `download_file` call started with no
staging file and no incomplete final content, the final path never holds
incompletely-written content, the staging file is always gone at the end, a
rename event occurs in an attempt only when that attempt succeeded — i.e.
only after a complete transfer within limits and passing validation — and
every failed attempt (write error, validation failure, or any earlier
error) ends with the staging file removed. -/
theorem c1_atomic_staging_publish (ctx : FileCtx) (envs : Nat → AttemptEnv)
    (f0 : Option String) :
    noIncompleteFinal (fsInit f0) (download_file ctx envs).evs = true ∧
    (runFs (fsInit f0) (download_file ctx envs).evs).temp = none ∧
    finalOk (runFs (fsInit f0) (download_file ctx envs).evs) = true ∧
    (∀ env : AttemptEnv, ∀ t p, Ev.renamed t p ∈ (attemptRun ctx env).evs →
      t = tempPathOf ctx.localPath ∧ p = ctx.localPath ∧
      (∃ n, (attemptRun ctx env).res = .success n) ∧ transferAndValidationOk ctx env) ∧
    (∀ env : AttemptEnv, ∀ s : FsState, s.temp = none → finalOk s = true →
      (attemptRun ctx env).res = .failed → (runFs s (segOf ctx env)).temp = none) := by
  have hfs := go_fs ctx envs RETRY_ATTEMPTS 0 (fsInit f0) rfl (finalOk_fsInit f0)
  refine ⟨hfs.1, hfs.2.1, hfs.2.2, ?_, ?_⟩
  · intro env t p h
    exact attempt_renamed h
  · intro env s ht hf _
    exact (attempt_fs ctx env s ht hf).2.1

/-- Witness for C1: a successful attempt shows the rename implies a
completed, validated transfer; a transport-failing attempt leaves no
staging file behind. -/
theorem c1_atomic_staging_publish_witness :
    transferAndValidationOk ⟨"f.txt", false, true, true, none⟩
      ⟨.failure, .response 200 none none (some 5) "hello", true, none⟩ ∧
    (runFs (fsInit none) (segOf ⟨"f.txt", false, true, true, none⟩
      ⟨.failure, .failure, true, none⟩)).temp = none := by
  have h := c1_atomic_staging_publish ⟨"f.txt", false, true, true, none⟩
    (fun _ => ⟨.failure, .response 200 none none (some 5) "hello", true, none⟩) none
  refine ⟨(h.2.2.2.1 ⟨.failure, .response 200 none none (some 5) "hello", true, none⟩
    "f.txt.tmp" "f.txt" (by decide)).2.2.2, ?_⟩
  exact h.2.2.2.2 ⟨.failure, .failure, true, none⟩ (fsInit none) rfl rfl (by decide)

/-- C5: for `.aiml` targets a blank body fails validation, an unparsable
body fails validation, and each failure fails the attempt while bumping the
validation-error counter; any well-formed document passes validation
whatever its structure — in particular one with no category elements passes
with a non-empty warning list — and such an attempt succeeds, yielding
Downloaded. -/
theorem c5_validation_gating :
    (∀ content parsed, isBlank content = true →
      (validate_xml_file true content parsed).1 = false) ∧
    (∀ content, isBlank content = false → (validate_xml_file true content none).1 = false) ∧
    (∀ content root, isBlank content = false →
      (validate_xml_file true content (some root)).1 = true) ∧
    (∀ content root, isBlank content = false → findallCategory root = [] →
      (validate_xml_file true content (some root)).2 ≠ []) ∧
    (∀ ctx env e lm cl body, (checkOf ctx env).1 = true →
      env.get = .response 200 e lm cl body → oversize cl = false → env.writeOk = true →
      ctx.isAiml = true → (validate_xml_file true body env.parsed).1 = false →
      (attemptRun ctx env).res = .failed ∧
      (attemptRun ctx env).delta.validation_errors = 1) ∧
    (∀ ctx env e lm cl body, (checkOf ctx env).1 = true →
      env.get = .response 200 e lm cl body → oversize cl = false → env.writeOk = true →
      ctx.isAiml = true → (validate_xml_file true body env.parsed).1 = true →
      (attemptRun ctx env).res = .success body.length ∧
      (∀ envs : Nat → AttemptEnv, envs 0 = env →
        (download_file ctx envs).outcome = .Downloaded body.length)) := by
  refine ⟨?_, ?_, ?_, ?_, ?_, ?_⟩
  · intro content parsed h
    simp [validate_xml_file, h]
  · intro content h
    simp [validate_xml_file, h]
  · intro content root h
    simp [validate_xml_file, h]
  · intro content root h hcats
    simp only [validate_xml_file, h, Bool.false_eq_true, if_false, aimlWarnings, hcats,
      List.isEmpty_nil, if_true]
    split <;> simp
  · intro ctx env e lm cl body hne hget hov hw hA hv
    have ha := attempt_vfail hne hget hov hw hA hv
    rw [ha]
    exact ⟨rfl, rfl⟩
  · intro ctx env e lm cl body hne hget hov hw hA hv
    have ha := attempt_success hne hget hov hw (fun _ => hv)
    refine ⟨by rw [ha], ?_⟩
    intro envs henvs
    have h1 := go_success ctx envs 3 2 0 body.length rfl (by rw [henvs, ha])
    show (downloadGo ctx envs 3 0).outcome = _
    rw [h1]

/-- Witness for C5: a blank body and an unparsable body are rejected; a
well-formed `aiml` root with zero categories is accepted with a warning and
yields Downloaded. -/
theorem c5_validation_gating_witness :
    (validate_xml_file true "  " none).1 = false ∧
    (validate_xml_file true "<a" none).1 = false ∧
    validate_xml_file true "<aiml></aiml>" (some (XmlElem.node "aiml" [])) =
      (true, ["no category elements"]) ∧
    (download_file ⟨"bot.aiml", true, true, true, none⟩
        (fun _ => ⟨.failure, .response 200 none none none "<aiml></aiml>", true,
          some (XmlElem.node "aiml" [])⟩)).outcome = .Downloaded 13 := by
  have h := c5_validation_gating
  refine ⟨h.1 "  " none (by decide), h.2.1 "<a" (by decide), by decide, ?_⟩
  have hd := (h.2.2.2.2.2 ⟨"bot.aiml", true, true, true, none⟩
    ⟨.failure, .response 200 none none none "<aiml></aiml>", true,
      some (XmlElem.node "aiml" [])⟩ none none none "<aiml></aiml>"
    (by decide) rfl rfl rfl rfl (by decide)).2
    (fun _ => ⟨.failure, .response 200 none none none "<aiml></aiml>", true,
      some (XmlElem.node "aiml" [])⟩) rfl
  exact hd

/-- Context of the C6/C9 counterexample runs: a forced `.aiml` item. -/
def ctxC6 : FileCtx := ⟨"bot.aiml", true, true, true, none⟩

/-- Attempt inputs of the C6/C9 counterexample runs: every attempt gets a
200 response whose body fails XML validation. -/
def envC6 : AttemptEnv := ⟨.failure, .response 200 none none none "<", true, none⟩

/-- Counterexample to C6 as stated: an item whose three attempts all fail
validation ends Failed — one terminal outcome — yet the validation-error
counter has been incremented three times, not exactly once. -/
theorem c6_stats_counterexample :
    (download_file ctxC6 (fun _ => envC6)).outcome = .Failed ∧
    (download_file ctxC6 (fun _ => envC6)).stats.validation_errors = 3 ∧
    (3 : Nat) ≠ 1 := by
  refine ⟨by decide, by decide, by decide⟩

lemma attempt_ve_le_one (ctx : FileCtx) (env : AttemptEnv) :
    (attemptRun ctx env).delta.validation_errors ≤ 1 := by
  rcases attempt_spec ctx env with ⟨ha, -⟩ | ⟨-, -, ha⟩ | ⟨_, _, _, _, _, -, -, -, ha⟩ |
    ⟨_, _, _, _, -, -, -, ha⟩ | ⟨_, _, _, _, -, -, -, -, ha⟩ |
    ⟨_, _, _, _, -, -, -, -, -, ha⟩ | ⟨_, _, _, _, -, -, -, -, -, ha⟩ <;>
    rw [ha] <;> simp [Stats.zero]

/-- C6 amended: the downloaded, skipped, error and total-byte counters are
each updated exactly once per terminal outcome, but the validation-error
counter is incremented once per failing validation attempt — its final
value is the sum of the per-attempt increments over all executed attempts,
up to RETRY_ATTEMPTS per item, not once per terminal outcome. -/
theorem c6_stats_amended (ctx : FileCtx) (envs : Nat → AttemptEnv) :
    ((download_file ctx envs).outcome = .Skipped →
      (download_file ctx envs).stats.skipped = 1 ∧
      (download_file ctx envs).stats.downloaded = 0 ∧
      (download_file ctx envs).stats.errors = 0 ∧
      (download_file ctx envs).stats.total_size = 0) ∧
    (∀ n, (download_file ctx envs).outcome = .Downloaded n →
      (download_file ctx envs).stats.downloaded = 1 ∧
      (download_file ctx envs).stats.total_size = n ∧
      (download_file ctx envs).stats.skipped = 0 ∧
      (download_file ctx envs).stats.errors = 0) ∧
    ((download_file ctx envs).outcome = .Failed →
      (download_file ctx envs).stats.errors = 1 ∧
      (download_file ctx envs).stats.downloaded = 0 ∧
      (download_file ctx envs).stats.skipped = 0 ∧
      (download_file ctx envs).stats.total_size = 0) ∧
    (download_file ctx envs).stats.validation_errors =
      veSum ctx envs 0 (download_file ctx envs).attemptsUsed ∧
    (download_file ctx envs).stats.validation_errors ≤ RETRY_ATTEMPTS := by
  have h := go_main ctx envs RETRY_ATTEMPTS 0 rfl (by decide)
  refine ⟨h.2.2.1, h.2.2.2.1, h.2.2.2.2.1, ?_, ?_⟩
  · have := h.2.1
    rwa [Nat.sub_zero] at this
  · have hve := h.2.1
    rw [Nat.sub_zero] at hve
    show (downloadGo ctx envs RETRY_ATTEMPTS 0).stats.validation_errors ≤ RETRY_ATTEMPTS
    rw [hve]
    have hbound : veSum ctx envs 0 (downloadGo ctx envs RETRY_ATTEMPTS 0).attemptsUsed ≤
        (downloadGo ctx envs RETRY_ATTEMPTS 0).attemptsUsed := by
      rw [veSum]
      have hle := List.sum_le_card_nsmul
        ((List.range' 0 (downloadGo ctx envs RETRY_ATTEMPTS 0).attemptsUsed).map
          (fun i => (attemptRun ctx (envs i)).delta.validation_errors)) 1 ?_
      · simpa using hle
      · intro x hx
        rcases List.mem_map.mp hx with ⟨i, -, rfl⟩
        exact attempt_ve_le_one ctx (envs i)
    exact le_trans hbound h.1.2

/-- Witness for C6 amended, on the counterexample run: the Failed outcome
accounts for exactly one error increment while the validation-error counter
reflects every failing attempt. -/
theorem c6_stats_amended_witness :
    (download_file ctxC6 (fun _ => envC6)).stats.errors = 1 ∧
    (download_file ctxC6 (fun _ => envC6)).stats.validation_errors =
      veSum ctxC6 (fun _ => envC6) 0 (download_file ctxC6 (fun _ => envC6)).attemptsUsed := by
  have h := c6_stats_amended ctxC6 (fun _ => envC6)
  exact ⟨(h.2.2.1 (by decide)).1, h.2.2.2.1⟩

/-- Counterexample to C8 as stated: a collection whose manifest lists no
files is processed (returning success) without the metadata store ever
being flushed — the flush count is 0, not 1. -/
theorem c8_flush_counterexample :
    download_collection [] = (true, []) ∧
    ¬ (download_collection []).2.count CollEv.metaSaved = 1 := by
  refine ⟨rfl, by decide⟩

/-- C8 amended: for every collection with at least one listed file, the
metadata store is flushed exactly once, strictly after all item tasks have
settled (the flush is the last event), regardless of how the items fared; a
collection with an empty file list returns success immediately and never
loads or flushes the store. -/
theorem c8_flush_amended (files : List ItemSpec) (h : files ≠ []) :
    (download_collection files).2 =
      (files.enum.map (fun p => CollEv.itemSettled p.1 (processItem p.2))) ++
        [CollEv.metaSaved] ∧
    (download_collection files).2.count CollEv.metaSaved = 1 ∧
    (download_collection files).2.getLast? = some CollEv.metaSaved := by
  have hne : files.isEmpty = false := by
    cases files with
    | nil => exact absurd rfl h
    | cons a t => rfl
  have he : (download_collection files).2 =
      (files.enum.map (fun p => CollEv.itemSettled p.1 (processItem p.2))) ++
        [CollEv.metaSaved] := by
    simp [download_collection, hne]
  refine ⟨he, ?_, ?_⟩
  · rw [he, List.count_append]
    have hz : (files.enum.map
        (fun p => CollEv.itemSettled p.1 (processItem p.2))).count CollEv.metaSaved = 0 := by
      rw [List.count_eq_zero]
      intro hmem
      rcases List.mem_map.mp hmem with ⟨q, -, hq⟩
      cases hq
    rw [hz]
    rfl
  · rw [he, List.getLast?_concat]

/-- Witness for C8 amended: a one-item collection whose single item has an
invalid URL (so the item task fails) still ends with exactly one flush,
after the item settled. -/
theorem c8_flush_amended_witness :
    (download_collection [⟨false, ⟨"f.txt", false, true, true, none⟩,
        fun _ => ⟨.failure, .failure, true, none⟩⟩]).2 =
      [CollEv.itemSettled 0 false, CollEv.metaSaved] := by
  have h := c8_flush_amended [⟨false, ⟨"f.txt", false, true, true, none⟩,
    fun _ => ⟨.failure, .failure, true, none⟩⟩] (by simp)
  exact h.1.trans (by decide)

/-- Counterexample to C9 as stated: the three attempts of one run all write
to the same staging path (the final path plus `.tmp`); staging names are
reused across attempts, not fresh. -/
theorem c9_staging_names_counterexample :
    tempWrites (download_file ctxC6 (fun _ => envC6)).evs =
      ["bot.aiml.tmp", "bot.aiml.tmp", "bot.aiml.tmp"] ∧
    ¬ List.Pairwise (fun a b => a ≠ b)
      (tempWrites (download_file ctxC6 (fun _ => envC6)).evs) := by
  have h1 : tempWrites (download_file ctxC6 (fun _ => envC6)).evs =
      ["bot.aiml.tmp", "bot.aiml.tmp", "bot.aiml.tmp"] := by decide
  refine ⟨h1, ?_⟩
  rw [h1]
  intro hp
  exact (List.pairwise_cons.mp hp).1 "bot.aiml.tmp" (by simp) rfl

/-- C9 amended: every attempt of a `download_file` call stages into the one
deterministic staging path — the final path with `.tmp` appended, computed
once before the retry loop — and every rename publishes that same staging
path onto the final path; an abandoned staging artifact is overwritten in
place (and deleted by the failing attempt's cleanup), never avoided via a
fresh name. -/
theorem c9_staging_names_amended (ctx : FileCtx) (envs : Nat → AttemptEnv) :
    (∀ p c b, Ev.tempWritten p c b ∈ (download_file ctx envs).evs →
      p = tempPathOf ctx.localPath) ∧
    (∀ t p, Ev.renamed t p ∈ (download_file ctx envs).evs →
      t = tempPathOf ctx.localPath ∧ p = ctx.localPath) ∧
    tempPathOf ctx.localPath = ctx.localPath ++ ".tmp" := by
  have h := go_paths ctx envs RETRY_ATTEMPTS 0
  exact ⟨h.1, h.2, rfl⟩

/-- Witness for C9 amended: on the counterexample run every staging write
lands at `bot.aiml.tmp`. -/
theorem c9_staging_names_amended_witness :
    "bot.aiml.tmp" = tempPathOf "bot.aiml" ∧
    tempPathOf "bot.aiml" = "bot.aiml" ++ ".tmp" := by
  have h := c9_staging_names_amended ctxC6 (fun _ => envC6)
  exact ⟨h.1 "bot.aiml.tmp" "<" true (by decide), h.2.2⟩

end Aiml
